import Mathlib

/-!
Verification of the elastic extension of the Go language server
(file internal/lsp/elasticserver.go) against its specification.

The Go code is shallowly embedded: each Go function used by the claims is
translated into an executable Lean definition over explicit data models.
External collaborators (the type checker, the filesystem, subprocesses,
the semantic-version validator of the internal semver package, and the
path-joining of the Go standard library) are passed in as parameters or
modelled as explicit state, as noted at each definition.
Strings are modelled with Lean String; the Go code manipulates ASCII
paths and version strings, where Go bytes and Lean characters coincide.
-/

/-! ## String helpers mirroring the Go standard library functions used -/

/-- Go strings.Count of a single-character substring: the number of
occurrences of the character in the string. -/
def countChar (s : String) (c : Char) : Nat :=
  s.toList.count c

/-- Go strings.HasPrefix, on the character-list view of the strings. -/
def goHasPre (s pre : String) : Bool :=
  pre.toList.isPrefixOf s.toList

/-- Go strings.TrimSuffix: drop the suffix when present, else unchanged. -/
def trimSuffix (s suffix : String) : String :=
  if suffix.toList.isSuffixOf s.toList then
    String.mk (s.toList.take (s.toList.length - suffix.toList.length))
  else s

/-- Go strings.TrimPrefix: drop the leading occurrence when present, else
unchanged. -/
def trimPre (s pre : String) : String :=
  if pre.toList.isPrefixOf s.toList then String.mk (s.toList.drop pre.toList.length)
  else s

/-- The substring after the last occurrence of a character, the whole string
when the character is absent. This is the Go idiom
i := strings.LastIndex(rev, sep); rev = rev[i+1:] for a one-character sep
(when i = -1, rev[0:] is the entire string). -/
def afterLastChar (c : Char) (s : String) : String :=
  String.mk ((s.toList.reverse.takeWhile (fun x => x ≠ c)).reverse)

/-- Go strings.SplitAfter for a one-character separator, on character lists:
splits after each occurrence of the separator, always returns at least one
piece. -/
def splitAfterChar (c : Char) : List Char → List (List Char)
  | [] => [[]]
  | x :: xs =>
    if x = c then
      [x] :: splitAfterChar c xs
    else
      match splitAfterChar c xs with
      | [] => [[x]]
      | y :: ys => (x :: y) :: ys

/-- Go strings.Split for a one-character separator, on character lists:
splits around each occurrence of the separator, always returns at least one
piece. -/
def splitChar (c : Char) : List Char → List (List Char)
  | [] => [[]]
  | x :: xs =>
    if x = c then
      [] :: splitChar c xs
    else
      match splitChar c xs with
      | [] => [[x]]
      | y :: ys => (x :: y) :: ys

/-- Whether the first list occurs as a contiguous run inside the second. -/
def listIsInfixOf (sub s : List Char) : Bool :=
  (List.range (s.length + 1)).any (fun i => sub.isPrefixOf (s.drop i))

/-- Go strings.Contains, on the character-list view of the strings. -/
def containsSubstr (s sub : String) : Bool :=
  listIsInfixOf sub.toList s.toList

/-- Go filepath.Separator on POSIX systems. -/
def filepathSeparator : Char := '/'

/-- Go filepath.Join of a directory and one further component, without the
path-cleaning step (the paths handled by the claims are already clean, and
the writer and the cleaner of a file join identically, so cleaning is
irrelevant to the claims). -/
def joinPath (dir name : String) : String :=
  dir ++ "/" ++ name

/-! ## Version resolution (getPkgVersionFast / getPkgVersionSlow /
getPkgVersion, elasticserver.go lines 351-396)

The validity test semver.IsValid lives in the internal semver package of
the repository, outside the provided sources; since no claim depends on
which strings it accepts, it is passed in as a parameter isValid. -/

/-- Embeds getPkgVersionFast: split the location after each at-sign; for
every piece following an at-sign take the segment up to the next path
separator; collect those segments that the validator accepts; return the
collected segment exactly when there is one of them, the empty string
otherwise. -/
def getPkgVersionFast (isValid : String → Bool) (loc : String) : String :=
  let strs := splitAfterChar '@' loc.toList
  let validVersion := (strs.drop 1).filterMap (fun s =>
    let substrs := splitChar filepathSeparator s
    let head := String.mk (substrs.headD [])
    if isValid head then some head else none)
  if validVersion.length ≠ 1 then ""
  else validVersion.headD ""

/-- Embeds getPkgVersionSlow, which unconditionally fails. -/
def getPkgVersionSlow : Except String Unit :=
  Except.error "for now, there is no proper and efficient API to get the revision"

/-- Embeds the pseudo-version normalization block of getPkgVersion
(lines 364-368): when the revision holds exactly two hyphens, strip a
possible +incompatible suffix and keep only the part after the final
hyphen; otherwise keep the revision unchanged. -/
def normalizeRev (rev : String) : String :=
  if countChar rev '-' = 2 then
    let rev2 := trimSuffix rev "+incompatible"
    afterLastChar '-' rev2
  else rev

/-- The package locator returned to the client. -/
structure PackageLocator where
  name : String
  repoURI : String
  version : String
deriving DecidableEq, Repr

/-- The zero value of PackageLocator. -/
def emptyPackageLocator : PackageLocator :=
  { name := "", repoURI := "", version := "" }

/-- Embeds getPkgVersion. The Go function trims filepath.Join(pkgMod, dir)
from the location; that joined prefix is the parameter pkgModDir. When the
fast extraction gives an empty revision the slow path is consulted and its
unconditional error makes the function return with the locator untouched;
otherwise the normalized revision is stored in the locator. -/
def getPkgVersion (pkgModDir : String) (pkgLoc : PackageLocator) (loc : String)
    (isValid : String → Bool) : PackageLocator :=
  let rev := getPkgVersionFast isValid (trimPre loc pkgModDir)
  if rev = "" then
    match getPkgVersionSlow with
    | Except.error _ => pkgLoc
    | Except.ok _ => { pkgLoc with version := normalizeRev rev }
  else
    { pkgLoc with version := normalizeRev rev }

/-- The identity of a Go package as seen by the handlers: its name and
its canonical path (types.Package.Name and types.Package.Path). -/
structure PkgData where
  name : String
  path : String
deriving DecidableEq, Repr

/-- Embeds collectPkgMetadata (lines 330-349). A nil package gives the
empty locator. The workspace and standard-library tests are the raw
string-prefix tests of the source. The repository-root lookup
(vcs.RepoRootForImportPath) is an external collaborator passed as the
parameter repoRootLookup, returning the canonical repository URL on
success. -/
def collectPkgMetadata (pkg : Option PkgData) (dir : String) (loc : String)
    (goRoot pkgModDir : String) (isValid : String → Bool)
    (repoRootLookup : String → Option String) : PackageLocator :=
  match pkg with
  | none => emptyPackageLocator
  | some p =>
    let pkgLocator : PackageLocator := { name := p.name, repoURI := p.path, version := "" }
    if goHasPre loc dir || goHasPre loc goRoot then
      pkgLocator
    else
      let pkgLocator := getPkgVersion pkgModDir pkgLocator loc isValid
      match repoRootLookup p.path with
      | some repo => { pkgLocator with repoURI := repo }
      | none => pkgLocator

/-! ## Protocol data model (the result shapes built by the handlers) -/

/-- A source range, as carried inside a protocol Location. -/
structure RangeM where
  startLine : Nat
  startChar : Nat
  endLine : Nat
  endChar : Nat
deriving DecidableEq, Repr

/-- A protocol Location: a document URI plus a range. -/
structure LocationM where
  uri : String
  range : RangeM
deriving DecidableEq, Repr

/-- The SymbolLocator returned by EDefinition. The Go Loc field is a
pointer that stays nil on the cross-view path, modelled with Option. Qname
and Kind keep their Go zero values (empty string, 0) on the same-view
path. -/
structure SymbolLocator where
  qname : String
  kind : Nat
  loc : Option LocationM
  package : PackageLocator
deriving DecidableEq, Repr

/-- LSP SymbolKind numbering used by the protocol package. -/
def kindPackage : Nat := 4
/-- LSP SymbolKind Method. -/
def kindMethod : Nat := 6
/-- LSP SymbolKind Field. -/
def kindField : Nat := 8
/-- LSP SymbolKind Interface. -/
def kindInterface : Nat := 11
/-- LSP SymbolKind Function. -/
def kindFunction : Nat := 12
/-- LSP SymbolKind Variable. -/
def kindVariable : Nat := 13
/-- LSP SymbolKind Constant. -/
def kindConstant : Nat := 14
/-- LSP SymbolKind String. -/
def kindString : Nat := 15
/-- LSP SymbolKind Number. -/
def kindNumber : Nat := 16
/-- LSP SymbolKind Boolean. -/
def kindBoolean : Nat := 17
/-- LSP SymbolKind Array. -/
def kindArray : Nat := 18
/-- LSP SymbolKind Null. -/
def kindNull : Nat := 21
/-- LSP SymbolKind Struct. -/
def kindStruct : Nat := 23

/-! ## The symbol classifier (getSymbolKind, lines 202-248) -/

/-- The information classes of a basic type that getSymbolKind inspects
(types.IsNumeric, types.IsBoolean, types.IsString, or none of those). -/
inductive BasicClass where
  | numeric
  | boolean
  | stringy
  | otherBasic
deriving DecidableEq, Repr

/-- The underlying shape of a named type, as far as getSymbolKind
distinguishes it. otherU covers maps, channels, pointers, signatures and
every other underlying type outside the listed cases. -/
inductive Underlying where
  | structU
  | interfaceU
  | sliceU
  | arrayU
  | basicU (k : BasicClass)
  | otherU
deriving DecidableEq, Repr

/-- The dynamic class of a types.Object as far as the type switch of
getSymbolKind distinguishes it. otherObj covers builtins, labels and a nil
object, none of which match a case of the switch. -/
inductive ObjShape where
  | constObj
  | varObj (isField : Bool)
  | nilObj
  | pkgNameObj
  | funcObj (hasRecv : Bool)
  | typeNameObj (u : Underlying)
  | otherObj
deriving DecidableEq, Repr

/-- Embeds getSymbolKind: the type switch mapping a declaration object to
an LSP symbol kind, with 0 for every uncovered shape. -/
def getSymbolKind : ObjShape → Nat
  | ObjShape.constObj => kindConstant
  | ObjShape.varObj true => kindField
  | ObjShape.varObj false => kindVariable
  | ObjShape.nilObj => kindNull
  | ObjShape.pkgNameObj => kindPackage
  | ObjShape.funcObj false => kindFunction
  | ObjShape.funcObj true => kindMethod
  | ObjShape.typeNameObj Underlying.structU => kindStruct
  | ObjShape.typeNameObj Underlying.interfaceU => kindInterface
  | ObjShape.typeNameObj Underlying.sliceU => kindArray
  | ObjShape.typeNameObj Underlying.arrayU => kindArray
  | ObjShape.typeNameObj (Underlying.basicU BasicClass.numeric) => kindNumber
  | ObjShape.typeNameObj (Underlying.basicU BasicClass.boolean) => kindBoolean
  | ObjShape.typeNameObj (Underlying.basicU BasicClass.stringy) => kindString
  | ObjShape.typeNameObj (Underlying.basicU BasicClass.otherBasic) => 0
  | ObjShape.typeNameObj Underlying.otherU => 0
  | ObjShape.otherObj => 0

/-! ## The qualified-name resolver (getQName, lines 250-326) -/

/-- The receiver type expression of a method declaration: a star
expression over an identifier, a plain identifier, or any other
expression (for which the Go switch leaves the type name empty). -/
inductive RecvTy where
  | star (n : String)
  | ident (n : String)
  | otherRecv
deriving DecidableEq, Repr

/-- The base type name taken from a receiver expression. -/
def recvTypeName : RecvTy → String
  | RecvTy.star n => n
  | RecvTy.ident n => n
  | RecvTy.otherRecv => ""

/-- An enclosing AST node, as far as the walk of getQName distinguishes
it: struct and interface type literals, named-type declarations, field
declarations with their declared names, value declarations with their
declared names, function declarations with an optional receiver, and every
other node kind. -/
inductive AstNode where
  | structType
  | interfaceType
  | typeSpec (name : String)
  | field (names : List String)
  | valueSpec (names : List String)
  | funcDecl (recv : Option RecvTy)
  | other
deriving DecidableEq, Repr

/-- One step of the getQName walk: the effect on the accumulator of the
node n whose enclosing parent node follows it on the path. A struct type
literal consults the parent: a named-type declaration contributes the type
name, a field or value declaration contributes the FIRST declared name
when any name is declared; an interface literal consults the parent for a
named-type declaration; a method declaration contributes its receiver base
type name regardless of the parent; every other node leaves the
accumulator unchanged. -/
def qnameStep (n parent : AstNode) (q : String) : String :=
  match n with
  | AstNode.structType =>
    match parent with
    | AstNode.typeSpec nm => nm ++ "." ++ q
    | AstNode.field names =>
      match names with
      | [] => q
      | nm :: _ => nm ++ "." ++ q
    | AstNode.valueSpec names =>
      match names with
      | [] => q
      | nm :: _ => nm ++ "." ++ q
    | _ => q
  | AstNode.interfaceType =>
    match parent with
    | AstNode.typeSpec nm => nm ++ "." ++ q
    | _ => q
  | AstNode.funcDecl recv =>
    match recv with
    | none => q
    | some r => recvTypeName r ++ "." ++ q
  | _ => q

/-- The walk of getQName over the enclosing-node path: each node is
processed together with the node that follows it (its parent on the path,
index id+2 in the source). The final node has no successor; the source
would index out of range there for a struct or interface literal, which
cannot occur because a real path ends at the file node, while a method
declaration still contributes its receiver prefix. -/
def qnameWalk : List AstNode → String → String
  | [], q => q
  | [n], q =>
    match n with
    | AstNode.funcDecl (some r) => recvTypeName r ++ "." ++ q
    | _ => q
  | n :: parent :: rest, q => qnameWalk (parent :: rest) (qnameStep n parent q)

/-- A declaration object as used by the handlers: its name, its package
(none for builtins) and its classifier shape. -/
structure TypesObjectM where
  name : String
  pkg : Option PkgData
  shape : ObjShape
deriving DecidableEq, Repr

/-- Embeds getQName. Package declarations short-circuit to their bare
name. A failed parse of the declaring file gives the empty string. The
enclosing-node path (astutil.PathEnclosingInterval, innermost first) is
the input astPath; the walk skips its first element, the declaration
identifier itself. Afterwards a declaration without a package keeps the
accumulator, otherwise the package name is prefixed. -/
def getQName (parseOk : Bool) (astPath : List AstNode) (declObj : TypesObjectM)
    (kind : Nat) : String :=
  let qname := declObj.name
  if kind = kindPackage then qname
  else if parseOk = false then ""
  else
    let qname := qnameWalk (astPath.drop 1) qname
    match declObj.pkg with
    | none => qname
    | some p => p.name ++ "." ++ qname

/-! ## The EDefinition handler (lines 77-118)

The handler is embedded from the point where the external collaborators
have produced the resolved identifier: its name, the declaration URI and
file path, the declaration range, the declaration object and the parsed
enclosing-node path of the declaring file. The earlier failure exits
(file lookup, identifier resolution, range computation) precede all the
logic the claims are about. -/

/-- The inputs of one successful identifier resolution. -/
structure EDefInput where
  viewFolder : String
  identName : String
  declURI : String
  declPath : String
  declRange : RangeM
  declObj : TypesObjectM
  parseOk : Bool
  astPath : List AstNode
deriving Repr

/-- Embeds EDefinition. The same-view test is the raw string-prefix test
of the source. On the same-view path a single locator carrying only the
location and the zero package locator is returned; on the cross-view path
the declaration is classified (kind 0 is a named error), the qualified
name and the package locator are computed, and a single locator carrying
only those is returned. -/
def eDefinition (goRoot pkgModDir : String) (isValid : String → Bool)
    (repoRootLookup : String → Option String) (inp : EDefInput) :
    Except String (List SymbolLocator) :=
  if goHasPre inp.declPath inp.viewFolder then
    Except.ok [{ qname := "", kind := 0,
                 loc := some { uri := inp.declURI, range := inp.declRange },
                 package := emptyPackageLocator }]
  else
    let kind := getSymbolKind inp.declObj.shape
    if kind = 0 then
      Except.error ("no corresponding symbol kind for '" ++ inp.identName ++ "'")
    else
      let qname := getQName inp.parseOk inp.astPath inp.declObj kind
      let pkgLocator := collectPkgMetadata inp.declObj.pkg inp.viewFolder inp.declPath
        goRoot pkgModDir isValid repoRootLookup
      Except.ok [{ qname := qname, kind := kind, loc := none, package := pkgLocator }]

/-! ## The Full handler (lines 120-166) and its symbol flattening
(constructDetailSymbol, lines 579-616) -/

/-- A node of the hierarchical document outline produced by the external
DocumentSymbol collaborator. -/
inductive DocumentSymbol where
  | mk (name : String) (kind : Nat) (deprecated : Bool) (selectionRange : RangeM)
       (children : List DocumentSymbol)

/-- The name of an outline node. -/
def DocumentSymbol.name : DocumentSymbol → String
  | DocumentSymbol.mk n _ _ _ _ => n

/-- The children of an outline node. -/
def DocumentSymbol.children : DocumentSymbol → List DocumentSymbol
  | DocumentSymbol.mk _ _ _ _ cs => cs

/-- The flat symbol information of one entry. -/
structure SymbolInformation where
  name : String
  kind : Nat
  deprecated : Bool
  containerName : String
  location : LocationM
deriving DecidableEq, Repr

/-- One flattened entry of the Full response. -/
structure DetailSymbolInformation where
  symbol : SymbolInformation
  qname : String
  package : PackageLocator
deriving DecidableEq, Repr

/-- Embeds the flattenDocumentSymbol closure of constructDetailSymbol: a
pre-order walk of the outline that emits one entry per node. The entry
qualified name is the package locator name, a dot, and the accumulated
dotted prefix (the prefix of the parent extended with the node name, or
the bare node name at top level). The recursion into the children passes
the extended prefix and the node name as container. -/
def flattenDocumentSymbol (uri : String) (pkgLocator : PackageLocator) :
    List DocumentSymbol → String → String → List DetailSymbolInformation
  | [], _, _ => []
  | DocumentSymbol.mk name kind deprecated selectionRange children :: rest, pfx, container =>
    let sym : SymbolInformation :=
      { name := name, kind := kind, deprecated := deprecated, containerName := container,
        location := { uri := uri, range := selectionRange } }
    let qnamePfx := if pfx ≠ "" then pfx ++ "." ++ name else name
    let entry : DetailSymbolInformation :=
      { symbol := sym, qname := pkgLocator.name ++ "." ++ qnamePfx, package := pkgLocator }
    (entry ::
      (if children.length > 0 then
        flattenDocumentSymbol uri pkgLocator children qnamePfx name
      else [])) ++
      flattenDocumentSymbol uri pkgLocator rest pfx container

/-- Embeds constructDetailSymbol: obtain the outline from the external
collaborator (whose outcome is the first argument) and flatten it with
empty initial prefix and container; a collaborator error is passed
through beside the entries flattened from the empty outline. -/
def constructDetailSymbol (docSyms : Except String (List DocumentSymbol))
    (uri : String) (pkgLocator : PackageLocator) :
    List DetailSymbolInformation × Option String :=
  match docSyms with
  | Except.error e => (flattenDocumentSymbol uri pkgLocator [] "" "", some e)
  | Except.ok syms => (flattenDocumentSymbol uri pkgLocator syms "" "", none)

/-- The vendored-code marker of the Full handler:
string(filepath.Separator) + "vendor" + string(filepath.Separator). -/
def folderSkip : String := "/vendor/"

/-- The Full response: the flattened symbols and the reference list. The
reference list element type is irrelevant to the claims. -/
structure FullResponse where
  symbols : List DetailSymbolInformation
  references : List Unit
deriving DecidableEq, Repr

/-- The inputs of one Full request: the document path (the filename of the
request URI, which also names the checked file), the reference flag, the
view folder, and the outcomes of the external collaborators: the file
lookup, the package type check (yielding the types.Package of the
document), and the document outline. -/
structure FullInput where
  docPath : String
  reference : Bool
  viewFolder : String
  getFileOutcome : Option String
  checkOutcome : Except String (Option PkgData)
  docSyms : Except String (List DocumentSymbol)

/-- Embeds Full. A document whose path holds a vendor segment is answered
with the empty response and no error before any collaborator is consulted.
Otherwise collaborator failures are passed through with the empty
response; on success the package locator is computed once and the
flattened entries form the response. The reference flag changes nothing:
both final returns yield the same response with an empty reference
list. -/
def fullHandler (goRoot pkgModDir : String) (isValid : String → Bool)
    (repoRootLookup : String → Option String) (inp : FullInput) :
    FullResponse × Option String :=
  let fullResponse : FullResponse := { symbols := [], references := [] }
  if containsSubstr inp.docPath folderSkip then (fullResponse, none)
  else
    match inp.getFileOutcome with
    | some e => (fullResponse, some e)
    | none =>
      match inp.checkOutcome with
      | Except.error e => (fullResponse, some e)
      | Except.ok pkgTypes =>
        let pkgLocator := collectPkgMetadata pkgTypes inp.viewFolder inp.docPath
          goRoot pkgModDir isValid repoRootLookup
        match constructDetailSymbol inp.docSyms inp.docPath pkgLocator with
        | (_, some e) => (fullResponse, some e)
        | (detailSyms, none) => ({ fullResponse with symbols := detailSyms }, none)

/-! ## Filesystem model and the dependency manager
(goModInit lines 464-474, constructGoModManually lines 708-723,
ManageDeps lines 169-187, Cleanup lines 189-200)

The filesystem is the set of existing paths; os.Stat succeeding is
membership, os.Create adds the path, os.Remove removes it (the source
ignores removal errors, and file contents are irrelevant to the claims,
so neither is modelled). -/

/-- The filesystem: the list of existing paths. -/
abbrev Fs := List String

/-- Whether os.Stat succeeds on the path. -/
def statExists (fs : Fs) (p : String) : Bool := fs.contains p

/-- os.Create of the path. -/
def osCreate (fs : Fs) (p : String) : Fs := p :: fs

/-- os.Remove of the path. -/
def osRemove (fs : Fs) (p : String) : Fs := fs.filter (fun q => q ≠ p)

/-- The fields of the DepsManager value built by ManageDeps. Workspace
folders are identified by their paths. -/
structure DepsManagerState where
  installGoDeps : Bool
  moduleFolders : List String
  folderNeedsCleanup : List String
deriving DecidableEq, Repr

/-- The field of the ElasticServer that Cleanup consumes. -/
structure ElasticServerState where
  folderNeedsCleanup : List String
deriving DecidableEq, Repr

/-- Embeds constructGoModManually: nothing happens when a go.mod already
exists in the folder, otherwise the file is created. The module line
written into it is content, which the model omits. -/
def constructGoModManually (folder : String) (fs : Fs) : Fs :=
  if statExists fs (joinPath folder "go.mod") then fs
  else osCreate fs (joinPath folder "go.mod")

/-- Embeds DepsManager.goModInit. With the install flag on, the external
toolchain initializes the module (the parameter extGoModInit); with the
flag off, the folder is appended to the FolderNeedsCleanup list OF THE
DEPENDENCY MANAGER and the boundary file is written manually. The module
path computed by getModulePath only determines file content, which the
model omits. -/
def goModInit (extGoModInit : String → Fs → Fs) (dm : DepsManagerState)
    (folder : String) (fs : Fs) : DepsManagerState × Fs :=
  if dm.installGoDeps then (dm, extGoModInit folder fs)
  else
    ({ dm with folderNeedsCleanup := dm.folderNeedsCleanup ++ [folder] },
     constructGoModManually folder fs)

/-- Embeds ElasticServer.Cleanup: for every folder recorded in the SERVER
state, delete its go.mod and go.sum when they exist; absence and deletion
failures are ignored. -/
def cleanup (s : ElasticServerState) (fs : Fs) : Fs :=
  s.folderNeedsCleanup.foldl (fun fs folder =>
    let goMod := joinPath folder "go.mod"
    let goSum := joinPath folder "go.sum"
    let fs1 := if statExists fs goMod then osRemove fs goMod else fs
    if statExists fs1 goSum then osRemove fs1 goSum else fs1) fs

/-- Embeds ElasticServer.ManageDeps. A fresh DepsManager value is built
with empty folder lists; every workspace folder is processed by the run
step of the dependency manager (the parameter runFolder, covering
collectMetadata and the goModInit calls it makes; the range clause of the
Go loop iterates the folder list as it was on entry); then the downloads
run (the parameter download). The final DepsManagerState - its
folderNeedsCleanup included - is dropped when the function returns: no
statement of the source body writes any field of the server, so the
server state is returned unchanged. -/
def manageDeps (runFolder : DepsManagerState → String → Fs → DepsManagerState × Fs)
    (download : DepsManagerState → List String → Fs → Fs)
    (s : ElasticServerState) (installGoDeps : Bool) (folders : List String)
    (fs : Fs) : ElasticServerState × Fs :=
  let dm0 : DepsManagerState :=
    { installGoDeps := installGoDeps, moduleFolders := [], folderNeedsCleanup := [] }
  let stepped := folders.foldl
    (fun (acc : DepsManagerState × Fs) folder => runFolder acc.1 folder acc.2) (dm0, fs)
  let fsFinal := download stepped.1 folders stepped.2
  (s, fsFinal)

/-! ## The vendor-mode registry (vendorModeHelper, lines 734-765)

The three closures share one hidden slice; the model passes that slice
explicitly and returns its new value. -/

/-- The recognized legacy dependency-manifest file names. -/
def dependencyControlSystem : List String :=
  ["GLOCKFILE", "Godeps/Godeps.json", "Gopkg.lock", "dependencies.tsv",
   "glide.lock", "vendor.conf", "vendor.yml", "vendor/manifest", "vendor/vendor.json"]

/-- Embeds storeVendorFolder: append the folder unconditionally. -/
def storeVendorFolder (st : List String) (folder : String) : List String :=
  st ++ [folder]

/-- Embeds checkVendorFolder: the index of the folder when already
registered; else -1 when the folder holds a go.mod; else -1 when it holds
any recognized legacy manifest; else, when it holds a vendor entry, the
folder is registered and its new index returned; else -1. -/
def checkVendorFolder (fs : Fs) (st : List String) (folder : String) :
    List String × Int :=
  match st.findIdx? (fun dir => folder = dir) with
  | some index => (st, Int.ofNat index)
  | none =>
    if statExists fs (joinPath folder "go.mod") then (st, -1)
    else if dependencyControlSystem.any (fun name => statExists fs (joinPath folder name)) then
      (st, -1)
    else if statExists fs (joinPath folder "vendor") then
      (st ++ [folder], Int.ofNat st.length)
    else (st, -1)

/-- Embeds clearVendorFolder: an index outside the bounds leaves the
registry unchanged; otherwise the entry at the index is overwritten with
the final entry and the registry is shortened by one. -/
def clearVendorFolder (st : List String) (index : Int) : List String :=
  let length := st.length
  if index < 0 ∨ (length : Int) ≤ index then st
  else (st.set index.toNat (st.getLastD "")).dropLast

/-! ## Spec-side definitions used to state the claims -/

/-- The candidate segments of a location in the vocabulary of claim C4:
for each piece following an at-sign delimiter, the part up to the next
path separator. -/
def atSegments (loc : String) : List String :=
  ((splitAfterChar '@' loc.toList).drop 1).map
    (fun s => String.mk ((splitChar filepathSeparator s).headD []))

/-- The component-wise containment test that claim C10 contrasts with the
raw prefix test: the directory is the path itself or a path-component
ancestor of it (prefix followed by a separator). -/
def isPathComponentInside (dir p : String) : Bool :=
  dir = p || goHasPre p (dir ++ "/")

/-! ## Helper lemmas -/

theorem filterMap_if_eq_filter_map {α β : Type} [DecidableEq β] (g : α → β)
    (p : β → Bool) (l : List α) :
    l.filterMap (fun s => if p (g s) then some (g s) else none) = (l.map g).filter p := by
  induction l with
  | nil => rfl
  | cons a l ih =>
    simp only [List.filterMap_cons, List.map_cons, List.filter_cons]
    by_cases h : p (g a)
    · simp [h, ih]
    · simp [h, ih]

/-! ## Claim C3 -/

/-- Claim C3: version normalization keeps a string with a hyphen count
other than two unchanged; a string with exactly two hyphens is stripped of
a +incompatible suffix and reduced to the part after its final hyphen;
the three concrete examples of the spec; and getPkgVersion stores exactly
the normalized fast revision whenever that revision is non-empty. -/
theorem c3_version_normalization :
    (∀ rev : String, countChar rev '-' = 2 →
      normalizeRev rev = afterLastChar '-' (trimSuffix rev "+incompatible")) ∧
    (∀ rev : String, countChar rev '-' ≠ 2 → normalizeRev rev = rev) ∧
    normalizeRev "v0.0.0-20200101000000-abcdef123456" = "abcdef123456" ∧
    normalizeRev "v1.2.3+incompatible" = "v1.2.3+incompatible" ∧
    normalizeRev "v1.2.3-pre-deadbeef+incompatible" = "deadbeef" ∧
    (∀ (pkgModDir : String) (pkgLoc : PackageLocator) (loc : String)
       (isValid : String → Bool),
      getPkgVersionFast isValid (trimPre loc pkgModDir) ≠ "" →
      getPkgVersion pkgModDir pkgLoc loc isValid =
        { pkgLoc with
            version := normalizeRev (getPkgVersionFast isValid (trimPre loc pkgModDir)) }) := by
  refine ⟨?_, ?_, by decide, by decide, by decide, ?_⟩
  · intro rev h
    simp [normalizeRev, h]
  · intro rev h
    simp [normalizeRev, h]
  · intro pkgModDir pkgLoc loc isValid h
    simp [getPkgVersion, h]

/-- Witness for claim C3 at the concrete pseudo-version of the spec. -/
theorem c3_version_normalization_witness :
    countChar "v1.2.3-pre-deadbeef+incompatible" '-' = 2 ∧
    normalizeRev "v1.2.3-pre-deadbeef+incompatible" =
      afterLastChar '-' (trimSuffix "v1.2.3-pre-deadbeef+incompatible" "+incompatible") :=
  ⟨by decide, c3_version_normalization.1 "v1.2.3-pre-deadbeef+incompatible" (by decide)⟩

/-! ## Claim C4 -/

/-- Claim C4: fast version extraction returns the unique validator-accepted
segment following an at-sign delimiter when exactly one exists and the
empty string with zero or several such segments (shown for every validity
predicate, and at two concrete paths); the slow fallback always fails; and
with a failing fast path the package-locator version is left empty, both
by getPkgVersion and through collectPkgMetadata, rather than failing. -/
theorem c4_fast_version_extraction :
    (∀ (isValid : String → Bool) (loc : String),
      (((atSegments loc).filter isValid).length = 1 →
        getPkgVersionFast isValid loc = ((atSegments loc).filter isValid).headD "") ∧
      (((atSegments loc).filter isValid).length ≠ 1 →
        getPkgVersionFast isValid loc = "")) ∧
    getPkgVersionFast (fun s => s = "v1.2.3") "mod@v1.2.3/pkg/a.go" = "v1.2.3" ∧
    getPkgVersionFast (fun s => s = "v1.2.3" || s = "v4.5.6") "a@v1.2.3/b@v4.5.6/c.go" = "" ∧
    (getPkgVersionSlow =
      Except.error "for now, there is no proper and efficient API to get the revision") ∧
    (∀ (pkgModDir : String) (pkgLoc : PackageLocator) (loc : String)
       (isValid : String → Bool),
      getPkgVersionFast isValid (trimPre loc pkgModDir) = "" →
      getPkgVersion pkgModDir pkgLoc loc isValid = pkgLoc) ∧
    (∀ (p : PkgData) (dir loc goRoot pkgModDir : String) (isValid : String → Bool)
       (repoRootLookup : String → Option String),
      getPkgVersionFast isValid (trimPre loc pkgModDir) = "" →
      (collectPkgMetadata (some p) dir loc goRoot pkgModDir isValid
        repoRootLookup).version = "") := by
  have hfast : ∀ (isValid : String → Bool) (loc : String),
      getPkgVersionFast isValid loc =
        if ((atSegments loc).filter isValid).length ≠ 1 then ""
        else ((atSegments loc).filter isValid).headD "" := by
    intro isValid loc
    simp only [getPkgVersionFast, atSegments]
    rw [filterMap_if_eq_filter_map (fun s => String.mk ((splitChar filepathSeparator s).headD [])) isValid]
  refine ⟨?_, by decide, by decide, rfl, ?_, ?_⟩
  · intro isValid loc
    constructor
    · intro h
      rw [hfast, if_neg (by simp [h])]
    · intro h
      rw [hfast, if_pos h]
  · intro pkgModDir pkgLoc loc isValid h
    simp [getPkgVersion, h, getPkgVersionSlow]
  · intro p dir loc goRoot pkgModDir isValid repoRootLookup h
    unfold collectPkgMetadata
    by_cases hpre : (goHasPre loc dir || goHasPre loc goRoot) = true
    · simp [hpre]
    · simp only [Bool.not_eq_true] at hpre
      simp only [hpre, getPkgVersion, h, getPkgVersionSlow, if_pos, Bool.false_eq_true,
        if_false]
      cases hrr : repoRootLookup p.path <;> simp [hrr]

/-- Witness for claim C4 at a path holding exactly one accepted segment. -/
theorem c4_fast_version_extraction_witness :
    ((atSegments "mod@v1.2.3/pkg/a.go").filter (fun s => s = "v1.2.3")).length = 1 ∧
    getPkgVersionFast (fun s => s = "v1.2.3") "mod@v1.2.3/pkg/a.go" =
      ((atSegments "mod@v1.2.3/pkg/a.go").filter (fun s => s = "v1.2.3")).headD "" :=
  ⟨by decide,
   (c4_fast_version_extraction.1 (fun s => s = "v1.2.3") "mod@v1.2.3/pkg/a.go").1 (by decide)⟩

/-! ## Claim C9 -/

/-- Claim C9: a Full request on a document whose path holds a vendor
segment is answered with the empty response and no error, whatever the
outcomes of the file lookup, the type check and the outline collaborators
would have been - no collaborator result influences the answer. -/
theorem c9_full_vendor_shortcircuit :
    ∀ (goRoot pkgModDir : String) (isValid : String → Bool)
      (repoRootLookup : String → Option String) (inp : FullInput),
      containsSubstr inp.docPath folderSkip = true →
      fullHandler goRoot pkgModDir isValid repoRootLookup inp =
        ({ symbols := [], references := [] }, none) := by
  intro goRoot pkgModDir isValid repoRootLookup inp h
  simp [fullHandler, h]

/-- Witness for claim C9: a vendored path short-circuits even when every
collaborator outcome is an error. -/
theorem c9_full_vendor_shortcircuit_witness :
    containsSubstr "/ws/vendor/a.go" folderSkip = true ∧
    fullHandler "" "" (fun _ => false) (fun _ => none)
      { docPath := "/ws/vendor/a.go", reference := true, viewFolder := "/ws",
        getFileOutcome := some "file error", checkOutcome := Except.error "check error",
        docSyms := Except.error "outline error" } =
      ({ symbols := [], references := [] }, none) :=
  ⟨by decide,
   c9_full_vendor_shortcircuit "" "" (fun _ => false) (fun _ => none) _ (by decide)⟩

/-! ## Claim C2 -/

theorem containsSubstr_append (a s b : String) :
    containsSubstr (a ++ s ++ b) s = true := by
  unfold containsSubstr listIsInfixOf
  rw [List.any_eq_true]
  refine ⟨a.toList.length, ?_, ?_⟩
  · rw [List.mem_range]
    have h1 : (a ++ s ++ b).toList = a.toList ++ (s.toList ++ b.toList) := by
      simp [String.toList, String.data_append]
    rw [h1, List.length_append, List.length_append]
    omega
  · have h1 : (a ++ s ++ b).toList = a.toList ++ (s.toList ++ b.toList) := by
      simp [String.toList, String.data_append]
    rw [h1, List.drop_left, List.isPrefixOf_iff_prefix]
    exact List.prefix_append s.toList b.toList

/-- Claim C2: on the cross-view path, a declaration whose shape the
classifier leaves unmapped (kind 0) makes EDefinition fail with the error
message naming the identifier (the identifier occurs inside the message),
and the classifier itself is a total function yielding the unmapped value
0 - not an error - on the uncovered shapes. -/
theorem c2_unmapped_kind_error :
    (∀ (goRoot pkgModDir : String) (isValid : String → Bool)
       (repoRootLookup : String → Option String) (inp : EDefInput),
      goHasPre inp.declPath inp.viewFolder = false →
      getSymbolKind inp.declObj.shape = 0 →
      eDefinition goRoot pkgModDir isValid repoRootLookup inp =
        Except.error ("no corresponding symbol kind for '" ++ inp.identName ++ "'") ∧
      containsSubstr ("no corresponding symbol kind for '" ++ inp.identName ++ "'")
        inp.identName = true) ∧
    getSymbolKind (ObjShape.typeNameObj Underlying.otherU) = 0 ∧
    getSymbolKind (ObjShape.typeNameObj (Underlying.basicU BasicClass.otherBasic)) = 0 ∧
    getSymbolKind ObjShape.otherObj = 0 := by
  refine ⟨?_, rfl, rfl, rfl⟩
  intro goRoot pkgModDir isValid repoRootLookup inp hpre hkind
  constructor
  · simp [eDefinition, hpre, hkind]
  · have h := containsSubstr_append "no corresponding symbol kind for '" inp.identName "'"
    rw [String.append_assoc] at h
    exact h

/-- Witness for claim C2 at a concrete cross-view request whose
declaration object is a builtin-like shape outside the classifier
switch. -/
theorem c2_unmapped_kind_error_witness :
    goHasPre "/x/f.go" "/w" = false ∧
    eDefinition "" "" (fun _ => false) (fun _ => none)
      { viewFolder := "/w", identName := "append", declURI := "file:///x/f.go",
        declPath := "/x/f.go",
        declRange := { startLine := 0, startChar := 0, endLine := 0, endChar := 1 },
        declObj := { name := "append", pkg := none, shape := ObjShape.otherObj },
        parseOk := true, astPath := [] } =
      Except.error ("no corresponding symbol kind for '" ++ "append" ++ "'") ∧
    containsSubstr ("no corresponding symbol kind for '" ++ "append" ++ "'")
      "append" = true := by
  refine ⟨by decide, ?_⟩
  have h := c2_unmapped_kind_error.1 "" "" (fun _ => false) (fun _ => none)
    { viewFolder := "/w", identName := "append", declURI := "file:///x/f.go",
      declPath := "/x/f.go",
      declRange := { startLine := 0, startChar := 0, endLine := 0, endChar := 1 },
      declObj := { name := "append", pkg := none, shape := ObjShape.otherObj },
      parseOk := true, astPath := [] } (by decide) (by decide)
  exact h

/-! ## Claim C1 -/

/-- Claim C1: every successful EDefinition answer is a single locator;
when the declaration path extends the workspace folder (the same-view
test) the locator carries exactly the location of the declaration with
the zero package locator, zero kind and empty qualified name, and the
answer is unchanged under any replacement of the declaration object and
of the parsed syntax path (no classification and no qualified-name work
contributes); otherwise the locator carries no location, the non-zero
classified kind, the computed qualified name and the computed package
locator. -/
theorem c1_edefinition_result_shape :
    ∀ (goRoot pkgModDir : String) (isValid : String → Bool)
      (repoRootLookup : String → Option String) (inp : EDefInput)
      (locs : List SymbolLocator),
      eDefinition goRoot pkgModDir isValid repoRootLookup inp = Except.ok locs →
      ∃ l, locs = [l] ∧
        (goHasPre inp.declPath inp.viewFolder = true →
          l.loc = some { uri := inp.declURI, range := inp.declRange } ∧
          l.package = emptyPackageLocator ∧ l.qname = "" ∧ l.kind = 0 ∧
          (∀ (declObj2 : TypesObjectM) (parseOk2 : Bool) (astPath2 : List AstNode),
            eDefinition goRoot pkgModDir isValid repoRootLookup
              { inp with declObj := declObj2, parseOk := parseOk2, astPath := astPath2 } =
              Except.ok locs)) ∧
        (goHasPre inp.declPath inp.viewFolder = false →
          l.loc = none ∧
          l.kind = getSymbolKind inp.declObj.shape ∧ l.kind ≠ 0 ∧
          l.qname = getQName inp.parseOk inp.astPath inp.declObj
            (getSymbolKind inp.declObj.shape) ∧
          l.package = collectPkgMetadata inp.declObj.pkg inp.viewFolder inp.declPath
            goRoot pkgModDir isValid repoRootLookup) := by
  intro goRoot pkgModDir isValid repoRootLookup inp locs h
  by_cases hpre : goHasPre inp.declPath inp.viewFolder = true
  · rw [eDefinition, if_pos hpre] at h
    refine ⟨{ qname := "", kind := 0,
              loc := some { uri := inp.declURI, range := inp.declRange },
              package := emptyPackageLocator }, ?_, ?_, ?_⟩
    · exact (Except.ok.inj h).symm
    · intro _
      refine ⟨rfl, rfl, rfl, rfl, ?_⟩
      intro declObj2 parseOk2 astPath2
      rw [eDefinition]
      simp only []
      rw [if_pos hpre]
      exact h
    · intro hfalse
      rw [hpre] at hfalse
      exact absurd hfalse (by decide)
  · simp only [Bool.not_eq_true] at hpre
    rw [eDefinition, if_neg (by simp [hpre])] at h
    by_cases hkind : getSymbolKind inp.declObj.shape = 0
    · rw [if_pos hkind] at h
      exact absurd h (by simp)
    · rw [if_neg hkind] at h
      refine ⟨{ qname := getQName inp.parseOk inp.astPath inp.declObj
                  (getSymbolKind inp.declObj.shape),
                kind := getSymbolKind inp.declObj.shape, loc := none,
                package := collectPkgMetadata inp.declObj.pkg inp.viewFolder inp.declPath
                  goRoot pkgModDir isValid repoRootLookup }, ?_, ?_, ?_⟩
      · exact (Except.ok.inj h).symm
      · intro htrue
        rw [hpre] at htrue
        exact absurd htrue (by decide)
      · intro _
        exact ⟨rfl, rfl, hkind, rfl, rfl⟩

/-- Witness for claim C1 at a concrete same-view request. -/
theorem c1_edefinition_result_shape_witness :
    ∃ l, ([{ qname := "", kind := 0,
             loc := some { uri := "file:///w/p/f.go",
                           range := { startLine := 1, startChar := 2, endLine := 3, endChar := 4 } },
             package := emptyPackageLocator }] : List SymbolLocator) = [l] ∧
      (goHasPre "/w/p/f.go" "/w/p" = true →
        l.loc = some { uri := "file:///w/p/f.go",
                       range := { startLine := 1, startChar := 2, endLine := 3, endChar := 4 } } ∧
        l.package = emptyPackageLocator ∧ l.qname = "" ∧ l.kind = 0 ∧
        (∀ (declObj2 : TypesObjectM) (parseOk2 : Bool) (astPath2 : List AstNode),
          eDefinition "" "" (fun _ => false) (fun _ => none)
            { viewFolder := "/w/p", identName := "x", declURI := "file:///w/p/f.go",
              declPath := "/w/p/f.go",
              declRange := { startLine := 1, startChar := 2, endLine := 3, endChar := 4 },
              declObj := declObj2, parseOk := parseOk2, astPath := astPath2 } =
            Except.ok [{ qname := "", kind := 0,
                         loc := some { uri := "file:///w/p/f.go",
                                       range := { startLine := 1, startChar := 2, endLine := 3, endChar := 4 } },
                         package := emptyPackageLocator }])) ∧
      (goHasPre "/w/p/f.go" "/w/p" = false →
        l.loc = none ∧
        l.kind = getSymbolKind ObjShape.constObj ∧ l.kind ≠ 0 ∧
        l.qname = getQName true []
          { name := "x", pkg := none, shape := ObjShape.constObj }
          (getSymbolKind ObjShape.constObj) ∧
        l.package = collectPkgMetadata none "/w/p" "/w/p/f.go" "" ""
          (fun _ => false) (fun _ => none)) :=
  c1_edefinition_result_shape "" "" (fun _ => false) (fun _ => none)
    { viewFolder := "/w/p", identName := "x", declURI := "file:///w/p/f.go",
      declPath := "/w/p/f.go",
      declRange := { startLine := 1, startChar := 2, endLine := 3, endChar := 4 },
      declObj := { name := "x", pkg := none, shape := ObjShape.constObj },
      parseOk := true, astPath := [] } _ rfl

/-! ## Claim C10 -/

/-- Claim C10: the same-view test of EDefinition and the
workspace/stdlib test of the package-locator resolution are raw
string-prefix tests on the path, not path-component tests: a successful
answer carries a location exactly when the declaration path extends the
workspace folder string; a location extending the directory string skips
version resolution entirely; and the sibling-directory path
/w/project2/f.go under the root /w/proj - which is NOT inside it
component-wise - is treated as same-view and as version-resolution
skipped. -/
theorem c10_raw_prefix_checks :
    (∀ (goRoot pkgModDir : String) (isValid : String → Bool)
       (repoRootLookup : String → Option String) (inp : EDefInput),
      (∃ l, eDefinition goRoot pkgModDir isValid repoRootLookup inp = Except.ok [l] ∧
        l.loc ≠ none) ↔ goHasPre inp.declPath inp.viewFolder = true) ∧
    (∀ (p : PkgData) (dir loc goRoot pkgModDir : String) (isValid : String → Bool)
       (repoRootLookup : String → Option String),
      goHasPre loc dir = true →
      collectPkgMetadata (some p) dir loc goRoot pkgModDir isValid repoRootLookup =
        { name := p.name, repoURI := p.path, version := "" }) ∧
    goHasPre "/w/project2/f.go" "/w/proj" = true ∧
    isPathComponentInside "/w/proj" "/w/project2/f.go" = false ∧
    (∀ (goRoot pkgModDir : String) (isValid : String → Bool)
       (repoRootLookup : String → Option String) (inp : EDefInput),
      inp.viewFolder = "/w/proj" → inp.declPath = "/w/project2/f.go" →
      eDefinition goRoot pkgModDir isValid repoRootLookup inp =
        Except.ok [{ qname := "", kind := 0,
                     loc := some { uri := inp.declURI, range := inp.declRange },
                     package := emptyPackageLocator }]) := by
  refine ⟨?_, ?_, by decide, by decide, ?_⟩
  · intro goRoot pkgModDir isValid repoRootLookup inp
    constructor
    · rintro ⟨l, hok, hloc⟩
      by_cases hpre : goHasPre inp.declPath inp.viewFolder = true
      · exact hpre
      · exfalso
        simp only [Bool.not_eq_true] at hpre
        rw [eDefinition, if_neg (by simp [hpre])] at hok
        by_cases hkind : getSymbolKind inp.declObj.shape = 0
        · rw [if_pos hkind] at hok
          exact absurd hok (by simp)
        · rw [if_neg hkind] at hok
          have hl := List.head_eq_of_cons_eq (Except.ok.inj hok)
          apply hloc
          rw [← hl]
    · intro hpre
      refine ⟨{ qname := "", kind := 0,
                loc := some { uri := inp.declURI, range := inp.declRange },
                package := emptyPackageLocator }, ?_, by simp⟩
      rw [eDefinition, if_pos hpre]
  · intro p dir loc goRoot pkgModDir isValid repoRootLookup h
    rw [collectPkgMetadata]
    simp [h]
  · intro goRoot pkgModDir isValid repoRootLookup inp hfolder hpath
    rw [eDefinition, hfolder, hpath, if_pos (by decide)]

/-- Witness for claim C10: the sibling-directory input taken through the
iff and the version-resolution-skip parts of the claim. -/
theorem c10_raw_prefix_checks_witness :
    ((∃ l, eDefinition "" "" (fun _ => false) (fun _ => none)
        { viewFolder := "/w/proj", identName := "x", declURI := "file:///w/project2/f.go",
          declPath := "/w/project2/f.go",
          declRange := { startLine := 0, startChar := 0, endLine := 0, endChar := 1 },
          declObj := { name := "x", pkg := none, shape := ObjShape.constObj },
          parseOk := true, astPath := [] } = Except.ok [l] ∧ l.loc ≠ none)) ∧
    collectPkgMetadata (some { name := "q", path := "example.com/q" }) "/w/proj"
      "/w/project2/f.go" "" "" (fun _ => false) (fun _ => none) =
      { name := "q", repoURI := "example.com/q", version := "" } := by
  constructor
  · exact (c10_raw_prefix_checks.1 "" "" (fun _ => false) (fun _ => none)
      { viewFolder := "/w/proj", identName := "x", declURI := "file:///w/project2/f.go",
        declPath := "/w/project2/f.go",
        declRange := { startLine := 0, startChar := 0, endLine := 0, endChar := 1 },
        declObj := { name := "x", pkg := none, shape := ObjShape.constObj },
        parseOk := true, astPath := [] }).2 (by decide)
  · exact c10_raw_prefix_checks.2.1 { name := "q", path := "example.com/q" } "/w/proj"
      "/w/project2/f.go" "" "" (fun _ => false) (fun _ => none) (by decide)

/-! ## Claim C8 -/

/-- Claim C8: when the walk meets an anonymous struct literal whose
parent declares one or more names - a field declaration or a value
declaration - the FIRST declared name is the one prepended, whatever the
later sibling names are; consequently, for a member resolved through an
anonymous struct type shared by the sibling fields a and others, the
qualified name produced by getQName carries the prefix a, never a
sibling name. -/
theorem c8_first_name_tiebreak :
    (∀ (nm : String) (ns : List String) (q : String),
      qnameStep AstNode.structType (AstNode.field (nm :: ns)) q = nm ++ "." ++ q ∧
      qnameStep AstNode.structType (AstNode.valueSpec (nm :: ns)) q = nm ++ "." ++ q) ∧
    (∀ (declName pkgName pkgPath : String) (siblings : List String)
       (shape : ObjShape) (kind : Nat),
      kind ≠ kindPackage →
      getQName true
        [AstNode.other, AstNode.other, AstNode.other, AstNode.structType,
         AstNode.field ("a" :: siblings), AstNode.other]
        { name := declName, pkg := some { name := pkgName, path := pkgPath },
          shape := shape } kind =
        pkgName ++ "." ++ ("a" ++ "." ++ declName)) := by
  constructor
  · intro nm ns q
    exact ⟨rfl, rfl⟩
  · intro declName pkgName pkgPath siblings shape kind hkind
    rw [getQName, if_neg hkind]
    rfl

/-- Witness for claim C8 at the two-sibling declaration of the spec
example: fields a, b sharing one anonymous struct type. -/
theorem c8_first_name_tiebreak_witness :
    (8 : Nat) ≠ kindPackage ∧
    getQName true
      [AstNode.other, AstNode.other, AstNode.other, AstNode.structType,
       AstNode.field ("a" :: ["b"]), AstNode.other]
      { name := "m", pkg := some { name := "p", path := "" },
        shape := ObjShape.varObj true } 8 =
      "p" ++ "." ++ ("a" ++ "." ++ "m") :=
  ⟨by decide, c8_first_name_tiebreak.2 "m" "p" "" ["b"] (ObjShape.varObj true) 8 (by decide)⟩

/-! ## Claim C6 -/

/-- Claim C6 (evaluated at the failing input): with the install flag off,
goModInit writes the boundary file and records the folder - but only in
the FolderNeedsCleanup list of the local DepsManager value; ManageDeps
returns the SERVER state unchanged with the cleanup list still empty, so
Cleanup leaves the synthesized go.mod in place after shutdown, while a
server whose list had carried the folder would have deleted it. -/
theorem c6_cleanup_never_reached :
    (goModInit (fun _ fs => fs)
      { installGoDeps := false, moduleFolders := [], folderNeedsCleanup := [] }
      "/ws/proj" []).1.folderNeedsCleanup = ["/ws/proj"] ∧
    statExists (goModInit (fun _ fs => fs)
      { installGoDeps := false, moduleFolders := [], folderNeedsCleanup := [] }
      "/ws/proj" []).2 "/ws/proj/go.mod" = true ∧
    manageDeps (fun dm folder fs => goModInit (fun _ fs2 => fs2) dm folder fs)
      (fun _ _ fs => fs) { folderNeedsCleanup := [] } false ["/ws/proj"] [] =
      ({ folderNeedsCleanup := [] }, ["/ws/proj/go.mod"]) ∧
    statExists (cleanup { folderNeedsCleanup := [] } ["/ws/proj/go.mod"])
      "/ws/proj/go.mod" = true ∧
    statExists (cleanup { folderNeedsCleanup := ["/ws/proj"] } ["/ws/proj/go.mod"])
      "/ws/proj/go.mod" = false := by
  refine ⟨rfl, by decide, rfl, by decide, by decide⟩

/-! ## Claim C7 -/

theorem listGetLastD_eq_getLast (l : List String) (h : l ≠ []) (d : String) :
    l.getLastD d = l.getLast h := by
  induction l generalizing d with
  | nil => exact absurd rfl h
  | cons a t ih =>
    cases t with
    | nil => rfl
    | cons b t2 =>
      rw [List.getLastD_cons, List.getLast_cons (by simp)]
      exact ih (by simp) a

theorem swapRemoveAux (ys : List String) :
    ∀ (v : String) (i : Nat), i < ys.length + 1 →
    (((ys ++ [v]).set i v).dropLast).Perm ((ys ++ [v]).eraseIdx i) := by
  induction ys with
  | nil =>
    intro v i h
    have hi : i = 0 := by simpa using Nat.lt_one_iff.mp (by simpa using h)
    subst hi
    simp
  | cons a ys ih =>
    intro v i h
    cases i with
    | zero =>
      simp only [List.cons_append, List.set, List.eraseIdx]
      rw [List.dropLast_cons_of_ne_nil (by simp)]
      simp only [List.append_eq]
      rw [List.dropLast_concat]
      exact (List.perm_append_singleton v ys).symm
    | succ j =>
      simp only [List.cons_append, List.set, List.eraseIdx]
      rw [List.dropLast_cons_of_ne_nil]
      · exact List.Perm.cons a (ih v j (by simpa using Nat.lt_of_succ_lt_succ h))
      · intro hc
        have hlen := congrArg List.length hc
        simp at hlen

theorem clearVendorFolder_perm (st : List String) (i : Nat) (h : i < st.length) :
    (clearVendorFolder st (Int.ofNat i)).Perm (st.eraseIdx i) := by
  have hne : st ≠ [] := by
    intro hc
    subst hc
    simp at h
  rw [clearVendorFolder]
  rw [if_neg ?hguard]
  case hguard =>
    rw [Int.ofNat_eq_natCast]
    push_neg
    constructor
    · omega
    · exact_mod_cast h
  rw [Int.ofNat_eq_natCast, Int.toNat_ofNat, listGetLastD_eq_getLast st hne ""]
  have hdecomp : st.dropLast ++ [st.getLast hne] = st := List.dropLast_append_getLast hne
  obtain ⟨v, hv⟩ : ∃ v, st.getLast hne = v := ⟨_, rfl⟩
  obtain ⟨ys, hys⟩ : ∃ ys, st.dropLast = ys := ⟨_, rfl⟩
  rw [hv, hys] at hdecomp
  have hlen : ys.length + 1 = st.length := by
    have := congrArg List.length hdecomp
    simpa using this
  rw [hv, ← hdecomp]
  exact swapRemoveAux ys v i (by omega)

/-- Claim C7: mark appends unconditionally; checkOrRegister returns the
existing index of an already-registered folder, -1 for a folder carrying
a go.mod or a recognized legacy manifest, registers and returns the new
index for a folder carrying a vendor entry, and otherwise returns -1;
remove at a valid index swap-removes (the result is a permutation of the
registry with exactly the indexed entry erased) and leaves the registry
unchanged at an invalid index; and the concrete mark-mark-mark-remove
scenario of the spec leaves exactly A and C. -/
theorem c7_vendor_registry_operations :
    (∀ (st : List String) (f : String), storeVendorFolder st f = st ++ [f]) ∧
    (∀ (fs : Fs) (st : List String) (f : String) (i : Nat),
      st.findIdx? (fun dir => f = dir) = some i →
      checkVendorFolder fs st f = (st, Int.ofNat i)) ∧
    (∀ (fs : Fs) (st : List String) (f : String),
      st.findIdx? (fun dir => f = dir) = none →
      statExists fs (joinPath f "go.mod") = true →
      checkVendorFolder fs st f = (st, -1)) ∧
    (∀ (fs : Fs) (st : List String) (f : String),
      st.findIdx? (fun dir => f = dir) = none →
      statExists fs (joinPath f "go.mod") = false →
      dependencyControlSystem.any (fun name => statExists fs (joinPath f name)) = true →
      checkVendorFolder fs st f = (st, -1)) ∧
    (∀ (fs : Fs) (st : List String) (f : String),
      st.findIdx? (fun dir => f = dir) = none →
      statExists fs (joinPath f "go.mod") = false →
      dependencyControlSystem.any (fun name => statExists fs (joinPath f name)) = false →
      statExists fs (joinPath f "vendor") = true →
      checkVendorFolder fs st f = (st ++ [f], Int.ofNat st.length)) ∧
    (∀ (fs : Fs) (st : List String) (f : String),
      st.findIdx? (fun dir => f = dir) = none →
      statExists fs (joinPath f "go.mod") = false →
      dependencyControlSystem.any (fun name => statExists fs (joinPath f name)) = false →
      statExists fs (joinPath f "vendor") = false →
      checkVendorFolder fs st f = (st, -1)) ∧
    (∀ (st : List String) (index : Int),
      index < 0 ∨ (st.length : Int) ≤ index → clearVendorFolder st index = st) ∧
    (∀ (st : List String) (i : Nat), i < st.length →
      (clearVendorFolder st (Int.ofNat i)).Perm (st.eraseIdx i)) ∧
    (checkVendorFolder []
      (storeVendorFolder (storeVendorFolder (storeVendorFolder [] "A") "B") "C")
      "B").2 = 1 ∧
    clearVendorFolder
      (storeVendorFolder (storeVendorFolder (storeVendorFolder [] "A") "B") "C")
      (checkVendorFolder []
        (storeVendorFolder (storeVendorFolder (storeVendorFolder [] "A") "B") "C")
        "B").2 = ["A", "C"] := by
  refine ⟨fun st f => rfl, ?_, ?_, ?_, ?_, ?_, ?_, clearVendorFolder_perm,
    by decide, by decide⟩
  · intro fs st f i h
    rw [checkVendorFolder, h]
  · intro fs st f hfind hmod
    rw [checkVendorFolder, hfind]
    simp [hmod]
  · intro fs st f hfind hmod hdep
    rw [checkVendorFolder, hfind]
    simp [hmod, hdep]
  · intro fs st f hfind hmod hdep hven
    rw [checkVendorFolder, hfind]
    simp [hmod, hdep, hven]
  · intro fs st f hfind hmod hdep hven
    rw [checkVendorFolder, hfind]
    simp [hmod, hdep, hven]
  · intro st index h
    rw [clearVendorFolder, if_pos h]

/-- Witness for claim C7: removal at the index of B after marking A, B
and C leaves a permutation of the registry without B. -/
theorem c7_vendor_registry_operations_witness :
    (1 : Nat) < (["A", "B", "C"] : List String).length ∧
    (clearVendorFolder ["A", "B", "C"] (Int.ofNat 1)).Perm
      ((["A", "B", "C"] : List String).eraseIdx 1) :=
  ⟨by decide, (c7_vendor_registry_operations.2.2.2.2.2.2.2.1) ["A", "B", "C"] 1 (by decide)⟩

/-! ## Claim C5 -/

/-- Whether every node of an outline carries a non-empty name. -/
def namesNonempty : List DocumentSymbol → Bool
  | [] => true
  | DocumentSymbol.mk name _ _ _ children :: rest =>
    (name != "") && namesNonempty children && namesNonempty rest

/-- The flattening described by the spec words of claim C5 (with the
top-level qualified name corrected to carry the package name): a pre-order
walk emitting, for every node, its name, its qualified name - the
qualified name of its parent, a dot, and its own name, the package
locator name serving as the qualified name of the virtual root - and the
one shared package locator. -/
def qualifySpec (pkgLocator : PackageLocator) (parentQ : String) :
    List DocumentSymbol → List (String × String × PackageLocator)
  | [] => []
  | DocumentSymbol.mk name _ _ _ children :: rest =>
    let q := parentQ ++ "." ++ name
    (name, q, pkgLocator) ::
      (qualifySpec pkgLocator q children ++ qualifySpec pkgLocator parentQ rest)

theorem strAppend_ne_empty_right (a b : String) (h : b ≠ "") : a ++ b ≠ "" := by
  intro hc
  apply h
  have hdata : a.data ++ b.data = [] := by
    have h2 := congrArg String.data hc
    simpa [String.data_append] using h2
  have hb : b.data = [] := (List.append_eq_nil.mp hdata).2
  apply String.ext
  rw [hb]

theorem flatten_qualify_general (uri : String) (pkgLocator : PackageLocator) :
    ∀ (syms : List DocumentSymbol) (pfx container : String),
      namesNonempty syms = true →
      (flattenDocumentSymbol uri pkgLocator syms pfx container).map
        (fun d => (d.symbol.name, d.qname, d.package)) =
      qualifySpec pkgLocator
        (if pfx = "" then pkgLocator.name else pkgLocator.name ++ "." ++ pfx) syms := by
  intro syms pfx container
  induction syms, pfx, container using flattenDocumentSymbol.induct uri pkgLocator with
  | case1 pfx container =>
    intro _
    simp [flattenDocumentSymbol, qualifySpec]
  | case2 name kind deprecated selectionRange children rest pfx container qnp ihChildren ihRest =>
    intro h
    simp only [namesNonempty, Bool.and_eq_true, bne_iff_ne, ne_eq] at h
    obtain ⟨⟨hn, hc⟩, hr⟩ := h
    have hqnp : (if pfx ≠ "" then pfx ++ "." ++ name else name) ≠ "" := by
      by_cases hp : pfx = ""
      · simpa [hp] using hn
      · simp only [hp, ne_eq, not_false_iff, if_true]
        exact strAppend_ne_empty_right (pfx ++ ".") name hn
    have hqp : (if pfx = "" then pkgLocator.name else pkgLocator.name ++ "." ++ pfx) ++ "." ++ name
        = pkgLocator.name ++ "." ++ (if pfx ≠ "" then pfx ++ "." ++ name else name) := by
      by_cases hp : pfx = ""
      · simp [hp]
      · simp only [hp, if_neg, ne_eq, not_false_iff, if_true, if_false,
          String.append_assoc]
    have hq : qnp = if pfx ≠ "" then pfx ++ "." ++ name else name := rfl
    rw [hq] at ihChildren
    simp only [flattenDocumentSymbol, qualifySpec]
    by_cases hch : children.length > 0
    · rw [if_pos hch]
      simp only [List.cons_append, List.map_cons, List.map_append,
        ihChildren hc, ihRest hr, if_neg hqnp, hqp]
    · have hce : children = [] := List.length_eq_zero.mp (by omega)
      subst hce
      rw [if_neg hch]
      simp only [qualifySpec, List.nil_append, List.cons_append, List.map_cons,
        ihRest hr, hqp]

/-- Counterexample to claim C5 as stated: with package name p, the single
top-level symbol f is flattened with qualified name p.f, not its own name
f alone. -/
theorem c5_counterexample_top_level_qname :
    ((flattenDocumentSymbol "u" { name := "p", repoURI := "r", version := "" }
      [DocumentSymbol.mk "f" 12 false
        { startLine := 0, startChar := 0, endLine := 0, endChar := 1 } []]
      "" "").map (fun d => d.qname)) = ["p.f"] ∧ ("p.f" : String) ≠ "f" := by
  constructor
  · simp [flattenDocumentSymbol]
  · decide

/-- Claim C5 as amended: for outlines whose symbol names are non-empty,
the flattened list of the Full response is exactly the pre-order walk in
which every entry carries the shared package locator and the qualified
name of its parent extended with a dot and its own name - the qualified
name of a top-level entry being the package locator name, a dot, and its
own name (not the bare name the claim stated). -/
theorem c5_flatten_preorder_qualified :
    ∀ (uri : String) (pkgLocator : PackageLocator) (syms : List DocumentSymbol),
      namesNonempty syms = true →
      (flattenDocumentSymbol uri pkgLocator syms "" "").map
        (fun d => (d.symbol.name, d.qname, d.package)) =
      qualifySpec pkgLocator pkgLocator.name syms := by
  intro uri pkgLocator syms h
  have hg := flatten_qualify_general uri pkgLocator syms "" "" h
  simpa using hg

/-- Witness for the amended claim C5 at a two-level outline. -/
theorem c5_flatten_preorder_qualified_witness :
    namesNonempty
      [DocumentSymbol.mk "T" 23 false
        { startLine := 0, startChar := 0, endLine := 0, endChar := 1 }
        [DocumentSymbol.mk "m" 6 false
          { startLine := 1, startChar := 0, endLine := 1, endChar := 1 } []]] = true ∧
    (flattenDocumentSymbol "u" { name := "p", repoURI := "r", version := "" }
      [DocumentSymbol.mk "T" 23 false
        { startLine := 0, startChar := 0, endLine := 0, endChar := 1 }
        [DocumentSymbol.mk "m" 6 false
          { startLine := 1, startChar := 0, endLine := 1, endChar := 1 } []]]
      "" "").map (fun d => (d.symbol.name, d.qname, d.package)) =
    qualifySpec { name := "p", repoURI := "r", version := "" }
      (PackageLocator.name { name := "p", repoURI := "r", version := "" })
      [DocumentSymbol.mk "T" 23 false
        { startLine := 0, startChar := 0, endLine := 0, endChar := 1 }
        [DocumentSymbol.mk "m" 6 false
          { startLine := 1, startChar := 0, endLine := 1, endChar := 1 } []]] :=
  ⟨by simp [namesNonempty],
   c5_flatten_preorder_qualified "u" { name := "p", repoURI := "r", version := "" }
    [DocumentSymbol.mk "T" 23 false
      { startLine := 0, startChar := 0, endLine := 0, endChar := 1 }
      [DocumentSymbol.mk "m" 6 false
        { startLine := 1, startChar := 0, endLine := 1, endChar := 1 } []]]
    (by simp [namesNonempty])⟩
